import Mathlib

/-!
Verification of the analytics engine of `ecomDashboard.py` (e-commerce sales
dashboard).

The dashboard loads order-line rows, filters them by date range / category /
region, and computes metric groups: sales performance, operational-efficiency
rates, month-over-month growth, and a composite per-category velocity score.

Embedding notes:
* A row is an `OrderLine`; `amount` and `qty` are `Option ℚ` where `none`
  models a value that failed numeric coercion (pandas `NaN`), matching the
  null-aware aggregation of the source (`sum` skips nulls and gives `0` on an
  all-null column, `mean` gives `NaN`).
* Real arithmetic is modelled exactly over `ℚ`; IEEE-754 rounding of the
  source's float64 arithmetic is out of scope.  The special float values that
  the source can actually produce (`NaN` from `0/0` or an all-null `mean`,
  `±inf` from `x/0`) are modelled explicitly by the `FVal` type, and a Python
  `ZeroDivisionError` (integer `0/0` in the rate metrics) is modelled as
  `none`.
* pandas `groupby` emits groups sorted by key; date and month keys are sorted
  with `List.insertionSort` under the calendar (lexicographic) order.  The
  category group list `cats` is kept in first-occurrence order: no property
  proved below depends on the order of that list (only membership, being a
  singleton, and a maximum over it are used, all permutation-invariant).
-/

namespace ECom

/-- Calendar date `(year, month, day)`.  The source's `Date` column has no
time-of-day component, so a triple of naturals ordered lexicographically is a
faithful model of the pandas timestamp order. -/
abbrev Date := ℕ × ℕ × ℕ

/-- `dle a b` : date `a` is on or before date `b` (lexicographic order on
year, then month, then day). -/
def dle (a b : Date) : Prop :=
  a.1 < b.1 ∨ (a.1 = b.1 ∧ (a.2.1 < b.2.1 ∨ (a.2.1 = b.2.1 ∧ a.2.2 ≤ b.2.2)))

instance : DecidableRel dle := fun a b => by unfold dle; infer_instance

instance : IsTotal Date dle := ⟨by intro a b; unfold dle; omega⟩

instance : IsTrans Date dle := ⟨by intro a b c; unfold dle; omega⟩

/-- One normalized order line (one CSV row after `load_data`): `order_id` is
not unique (an order may span several lines); `amount` / `qty` are `none` when
the source value failed numeric coercion; `promotion_ids` holds the literal
`"No Promotion"` sentinel when the source value was missing. -/
structure OrderLine where
  order_id : String
  date : Date
  amount : Option ℚ
  qty : Option ℚ
  category : String
  ship_state : String
  ship_city : String
  status : String
  promotion_ids : String
deriving DecidableEq

/-- The sidebar filter (source lines 129-135): the date mask keeps rows with
`date_range[0] <= Date <= date_range[1]`; then, when the selected category is
not the sentinel `'All'`, rows are narrowed to that exact category; then
likewise for the region against `ship-state`. -/
def filtered (df : List OrderLine) (startD endD : Date) (cat reg : String) :
    List OrderLine :=
  let m := df.filter (fun r => decide (dle startD r.date) && decide (dle r.date endD))
  let afterCat := if cat ≠ "All" then m.filter (fun r => decide (r.category = cat)) else m
  if reg ≠ "All" then afterCat.filter (fun r => decide (r.ship_state = reg)) else afterCat

/-- Restatement of the filter from the words of the spec: one conjunctive
pass keeping exactly the rows whose date lies in the inclusive range, whose
category matches unless the category filter is `"All"`, and whose
`ship_state` matches unless the region filter is `"All"`. -/
def filteredSpec (df : List OrderLine) (startD endD : Date) (cat reg : String) :
    List OrderLine :=
  df.filter (fun r =>
    (decide (dle startD r.date) && decide (dle r.date endD))
      && (decide (cat = "All") || decide (r.category = cat))
      && (decide (reg = "All") || decide (r.ship_state = reg)))

/-- `filtered_df['Amount'].sum()` — pandas `sum` skips nulls and returns `0`
on an empty or all-null column. -/
def total_sales (rows : List OrderLine) : ℚ :=
  (rows.filterMap (fun r => r.amount)).sum

/-- `filtered_df['Order ID'].nunique()` — number of distinct order ids. -/
def total_orders (rows : List OrderLine) : ℕ :=
  ((rows.map (fun r => r.order_id)).dedup).length

/-- `aov = total_sales / total_orders if total_orders > 0 else 0`
(source line 151; this metric, unlike the rates below, is guarded). -/
def aov (rows : List OrderLine) : ℚ :=
  if 0 < total_orders rows then total_sales rows / (total_orders rows : ℚ) else 0

/-- `filtered_df[filtered_df['Status'] == 'Cancelled']['Order ID'].nunique()`. -/
def cancelledOrders (rows : List OrderLine) : ℕ :=
  (((rows.filter (fun r => decide (r.status = "Cancelled"))).map
    (fun r => r.order_id)).dedup).length

/-- `cancellation_rate = (cancelled / total_orders) * 100` (source line 278).
Both operands are Python ints, so a zero `total_orders` raises
`ZeroDivisionError`; the raised exception is modelled as `none`. -/
def cancellation_rate (rows : List OrderLine) : Option ℚ :=
  if total_orders rows = 0 then none
  else some ((cancelledOrders rows : ℚ) / (total_orders rows : ℚ) * 100)

/-- `filtered_df[filtered_df['promotion-ids'] != 'No Promotion']['Order ID'].nunique()`. -/
def promoOrders (rows : List OrderLine) : ℕ :=
  (((rows.filter (fun r => decide (r.promotion_ids ≠ "No Promotion"))).map
    (fun r => r.order_id)).dedup).length

/-- `promotion_rate = (promotion_usage / total_orders) * 100` (source line
283), again unguarded integer division: `none` models `ZeroDivisionError`. -/
def promotion_rate (rows : List OrderLine) : Option ℚ :=
  if total_orders rows = 0 then none
  else some ((promoOrders rows : ℚ) / (total_orders rows : ℚ) * 100)

/-- The non-null `Qty` values of the rows, in row order. -/
def qtyVals (rows : List OrderLine) : List ℚ :=
  rows.filterMap (fun r => r.qty)

/-- `filtered_df['Qty'].mean()` (source line 287) — pandas `mean` skips nulls
and returns `NaN` (modelled `none`) when no non-null value exists. -/
def avg_qty_per_order (rows : List OrderLine) : Option ℚ :=
  if qtyVals rows = [] then none
  else some ((qtyVals rows).sum / ((qtyVals rows).length : ℚ))

/-- Mean of a list of rationals.  Every use below is on a nonempty list
(pandas would give `NaN` on an empty one; the one place where the source can
hit an empty mean, `avg_qty_per_order`, is modelled separately above with an
explicit `none`). -/
def meanQ (xs : List ℚ) : ℚ := xs.sum / (xs.length : ℚ)

/-- Calendar month key `(year, month)`, the value of
`Date.dt.to_period('M')`. -/
abbrev Month := ℕ × ℕ

/-- `mle a b` : month `a` is on or before month `b`. -/
def mle (a b : Month) : Prop := a.1 < b.1 ∨ (a.1 = b.1 ∧ a.2 ≤ b.2)

instance : DecidableRel mle := fun a b => by unfold mle; infer_instance

instance : IsTotal Month mle := ⟨by intro a b; unfold mle; omega⟩

instance : IsTrans Month mle := ⟨by intro a b c; unfold mle; omega⟩

/-- The calendar month of a row's date. -/
def monthOf (r : OrderLine) : Month := (r.date.1, r.date.2.1)

/-- The group keys of `groupby(Date.dt.to_period('M'))`: the distinct months
that occur among the rows, in ascending calendar order (pandas sorts group
keys).  A month with no row produces no key — there is no reindexing. -/
def monthKeys (rows : List OrderLine) : List Month :=
  List.insertionSort mle ((rows.map monthOf).dedup)

/-- The `Amount` sum of one month's group (null amounts skipped, `0` if all
are null). -/
def monthSum (rows : List OrderLine) (k : Month) : ℚ :=
  ((rows.filter (fun r => decide (monthOf r = k))).filterMap (fun r => r.amount)).sum

/-- `monthly_sales` (source line 320): per-month `Amount` sums in ascending
month order. -/
def monthlySales (rows : List OrderLine) : List ℚ :=
  (monthKeys rows).map (monthSum rows)

/-- The float values the trend/velocity pipeline can actually produce: an
ordinary (exactly-modelled) number, `NaN`, or a signed infinity. -/
inductive FVal where
  | nan : FVal
  | posInf : FVal
  | negInf : FVal
  | num : ℚ → FVal
deriving DecidableEq

/-- One step of `pct_change`: `(cur - prev) / prev` as float arithmetic.
When `prev = 0` the numerator is `cur`, so IEEE division gives `+inf`, `-inf`
or `NaN` (`0/0`) according to the sign of `cur`. -/
def fdivPct (cur prev : ℚ) : FVal :=
  if prev = 0 then (if 0 < cur then .posInf else if cur < 0 then .negInf else .nan)
  else .num ((cur - prev) / prev * 100)

/-- Tail of `pct_change`: each entry compares one value with the entry
immediately before it in the series. -/
def pctAux (prev : ℚ) : List ℚ → List FVal
  | [] => []
  | c :: rest => fdivPct c prev :: pctAux c rest

/-- `monthly_sales_df['Amount'].pct_change() * 100` (source line 325): the
first entry is `NaN` (no prior month), each later entry is the percentage
change against the immediately preceding series entry. -/
def pctChange : List ℚ → List FVal
  | [] => []
  | s :: rest => .nan :: pctAux s rest

/-- The rational carried by a non-`NaN`, non-infinite float value. -/
def toNum : FVal → Option ℚ
  | .num q => some q
  | _ => none

/-- The defined (finite, non-`NaN`) entries of a float series. -/
def definedVals (g : List FVal) : List ℚ := g.filterMap toNum

/-- How many entries of a float series are defined numbers. -/
def countDefined (g : List FVal) : ℕ := (definedVals g).length

/-- Whether the series contains `+inf`. -/
def hasPosInf (g : List FVal) : Bool :=
  g.any (fun v => match v with | .posInf => true | _ => false)

/-- Whether the series contains `-inf`. -/
def hasNegInf (g : List FVal) : Bool :=
  g.any (fun v => match v with | .negInf => true | _ => false)

/-- `monthly_sales_df['MoM Growth Rate'].mean()` (source line 375): pandas
`mean` skips `NaN` entries; an infinity of a single sign dominates the mean,
mixed infinities give `NaN`, and a series with no non-`NaN` entry gives
`NaN`. -/
def avgGrowth (g : List FVal) : FVal :=
  if hasPosInf g && hasNegInf g then .nan
  else if hasPosInf g then .posInf
  else if hasNegInf g then .negInf
  else if definedVals g = [] then .nan
  else .num (meanQ (definedVals g))

/-- The growth values as the spec words them: for `i ≥ 1`,
`(monthly_sales[i] - monthly_sales[i-1]) / monthly_sales[i-1] * 100`,
realized by zipping the series shifted by one against itself. -/
def specGrowthVals (sales : List ℚ) : List ℚ :=
  List.zipWith (fun cur prev => (cur - prev) / prev * 100) (sales.drop 1) sales

/-- The rows of one `(Date, Category)` group of
`velocity_df.groupby(['Date', 'Category'])` (source line 398). -/
def rowsAt (rows : List OrderLine) (d : Date) (c : String) : List OrderLine :=
  rows.filter (fun r => decide (r.date = d) && decide (r.category = c))

/-- Daily units for a `(date, category)` group: `'Qty': 'sum'`. -/
def dQty (rows : List OrderLine) (d : Date) (c : String) : ℚ :=
  ((rowsAt rows d c).filterMap (fun r => r.qty)).sum

/-- Daily revenue for a `(date, category)` group: `'Amount': 'sum'`. -/
def dAmt (rows : List OrderLine) (d : Date) (c : String) : ℚ :=
  ((rowsAt rows d c).filterMap (fun r => r.amount)).sum

/-- Daily distinct-order count for a `(date, category)` group:
`'Order ID': 'nunique'`. -/
def dOrd (rows : List OrderLine) (d : Date) (c : String) : ℚ :=
  ((((rowsAt rows d c).map (fun r => r.order_id)).dedup).length : ℚ)

/-- The distinct dates on which a category has at least one row, ascending:
the per-category day series produced by the double groupby (the outer
`groupby(['Date', 'Category'])` sorts by key, so inside one category the rows
stand in chronological order; missing days are simply absent). -/
def catDays (rows : List OrderLine) (c : String) : List Date :=
  List.insertionSort dle
    (((rows.filter (fun r => decide (r.category = c))).map (fun r => r.date)).dedup)

/-- A category's chronological daily-units series. -/
def seriesQty (rows : List OrderLine) (c : String) : List ℚ :=
  (catDays rows c).map (fun d => dQty rows d c)

/-- A category's chronological daily-revenue series. -/
def seriesAmt (rows : List OrderLine) (c : String) : List ℚ :=
  (catDays rows c).map (fun d => dAmt rows d c)

/-- A category's chronological daily-order-count series. -/
def seriesOrd (rows : List OrderLine) (c : String) : List ℚ :=
  (catDays rows c).map (fun d => dOrd rows d c)

/-- The trailing window `rolling(7, min_periods=1)` looks at for position
`i`: the up-to-seven series entries at positions `max 0 (i-6) .. i`. -/
def windowQ (xs : List ℚ) (i : ℕ) : List ℚ := (xs.take (i + 1)).drop (i + 1 - 7)

/-- `x.rolling(7, min_periods=1).mean()`: the series of trailing window
means, one per input position (never `NaN`, since every window is
nonempty). -/
def rolling7 (xs : List ℚ) : List ℚ :=
  (List.range xs.length).map (fun i => meanQ (windowQ xs i))

/-- `lambda x: x.rolling(7, min_periods=1).mean().mean()` applied to a
category's daily-units series (source line 406): the mean of the rolling
means. -/
def velQty (rows : List OrderLine) (c : String) : ℚ :=
  meanQ (rolling7 (seriesQty rows c))

/-- Mean of rolling means of the daily-revenue series (source line 407). -/
def velAmt (rows : List OrderLine) (c : String) : ℚ :=
  meanQ (rolling7 (seriesAmt rows c))

/-- Mean of rolling means of the daily-order-count series (source line
408). -/
def velOrd (rows : List OrderLine) (c : String) : ℚ :=
  meanQ (rolling7 (seriesOrd rows c))

/-- The categories present in the filtered rows (first-occurrence order; see
the header note — every property proved about this list is
permutation-invariant, so the sorted order pandas would use is not
needed). -/
def cats (rows : List OrderLine) : List String :=
  (rows.map (fun r => r.category)).dedup

/-- pandas `Series.max` of a nonempty column (the `[]` case is never hit by
the claims below, which always speak about a present category). -/
def maxList : List ℚ → ℚ
  | [] => 0
  | x :: xs => xs.foldl max x

/-- `category_velocity['Qty'].max()`: largest smoothed daily-units scalar
over all categories. -/
def maxQty (rows : List OrderLine) : ℚ := maxList ((cats rows).map (velQty rows))

/-- `category_velocity['Amount'].max()`. -/
def maxAmt (rows : List OrderLine) : ℚ := maxList ((cats rows).map (velAmt rows))

/-- `category_velocity['Order ID'].max()`. -/
def maxOrd (rows : List OrderLine) : ℚ := maxList ((cats rows).map (velOrd rows))

/-- Float division `x / m` of the normalization step: when `m = 0` pandas
does NOT degenerate to `0` — IEEE division yields `NaN` for `0/0` and a
signed infinity otherwise. -/
def fdiv (x m : ℚ) : FVal :=
  if m = 0 then (if 0 < x then .posInf else if x < 0 then .negInf else .nan)
  else .num (x / m)

/-- Float multiplication by an exact constant (`* 0.4`, `* 0.2`, `* 100`):
`NaN` propagates, an infinity keeps or flips its sign, `inf * 0` is `NaN`. -/
def fscale (v : FVal) (c : ℚ) : FVal :=
  match v with
  | .nan => .nan
  | .num q => .num (q * c)
  | .posInf => if c = 0 then .nan else if 0 < c then .posInf else .negInf
  | .negInf => if c = 0 then .nan else if 0 < c then .negInf else .posInf

/-- Float addition: `NaN` propagates, opposite infinities annihilate to
`NaN`. -/
def fadd : FVal → FVal → FVal
  | .nan, _ => .nan
  | _, .nan => .nan
  | .posInf, .negInf => .nan
  | .negInf, .posInf => .nan
  | .posInf, _ => .posInf
  | _, .posInf => .posInf
  | .negInf, _ => .negInf
  | _, .negInf => .negInf
  | .num a, .num b => .num (a + b)

/-- `Velocity Score` (source lines 412-416):
`((Qty/Qty.max())*0.4 + (Amount/Amount.max())*0.4 + (OrderID/OrderID.max())*0.2) * 100`,
with Python's left-to-right association and the exact weights 2/5, 2/5, 1/5
(the source writes them as the float literals 0.4, 0.4, 0.2). -/
def velocity_score (rows : List OrderLine) (c : String) : FVal :=
  fscale
    (fadd
      (fadd (fscale (fdiv (velQty rows c) (maxQty rows)) (2 / 5))
            (fscale (fdiv (velAmt rows c) (maxAmt rows)) (2 / 5)))
      (fscale (fdiv (velOrd rows c) (maxOrd rows)) (1 / 5)))
    100

/-! ## Concrete datasets used as counterexamples and witnesses -/

/-- A small dataset with all rows in April 2022: two lines, two distinct
orders, one cancelled, one carrying a promotion. -/
def exDF : List OrderLine :=
  [⟨"O1", (2022, 4, 1), some 100, some 1, "Kurta", "MAHARASHTRA", "MUMBAI",
      "Shipped", "No Promotion"⟩,
   ⟨"O2", (2022, 4, 2), some 200, some 2, "Set", "KARNATAKA", "BENGALURU",
      "Cancelled", "PromoA"⟩]

/-- The empty row set produced by filtering `exDF` to January 2023, a range
containing none of its dates. -/
def exEmpty : List OrderLine := filtered exDF (2023, 1, 1) (2023, 1, 31) "All" "All"

/-- One row whose `Qty` failed numeric coercion (an all-null `Qty` column). -/
def exNullQty : List OrderLine :=
  [⟨"O3", (2022, 4, 3), some 100, none, "Kurta", "MAHARASHTRA", "MUMBAI",
      "Shipped", "No Promotion"⟩]

/-! ## Generic helper lemmas -/

/-- Fewer rows can only have fewer distinct values. -/
theorem dedup_length_le_of_subset {α : Type} [DecidableEq α] {l1 l2 : List α}
    (h : l1 ⊆ l2) : l1.dedup.length ≤ l2.dedup.length := by
  rw [← List.card_toFinset, ← List.card_toFinset]
  exact Finset.card_le_card (fun a ha => by
    rw [List.mem_toFinset] at ha ⊢; exact h ha)

/-- Orders with status `Cancelled` are a subset of all orders. -/
theorem cancelledOrders_le (rows : List OrderLine) :
    cancelledOrders rows ≤ total_orders rows :=
  dedup_length_le_of_subset
    (List.map_subset _ (fun _ hx => (List.mem_filter.mp hx).1))

/-- Orders with a promotion are a subset of all orders. -/
theorem promoOrders_le (rows : List OrderLine) :
    promoOrders rows ≤ total_orders rows :=
  dedup_length_le_of_subset
    (List.map_subset _ (fun _ hx => (List.mem_filter.mp hx).1))

/-! ## Claims -/

/-- Claim C1 (code bug): on an empty filtered set, `total_orders` is `0` and
`average_order_value` is `0` as the spec demands, but — contrary to the
claim that no engine raises — `cancellation_rate` is computed as the
unguarded integer division `cancelled / total_orders` and raises
`ZeroDivisionError` (the `none` below), as does `promotion_rate`; and the
pandas mean behind `avg_units_per_order` would be `NaN`, not `0`. -/
theorem c1_empty_filter_divides_by_zero :
    exEmpty = [] ∧
    total_orders exEmpty = 0 ∧
    aov exEmpty = 0 ∧
    cancellation_rate exEmpty = none ∧
    promotion_rate exEmpty = none ∧
    avg_qty_per_order exEmpty = none := by
  have hE : exEmpty = [] := by decide
  refine ⟨hE, ?_, ?_, ?_, ?_, ?_⟩ <;> rw [hE] <;> rfl

/-- Claim C2 (code bug): whenever `total_orders > 0`, `cancellation_rate` and
`promotion_usage_rate` equal the claimed distinct-order-count ratios times
100 and both lie in `[0, 100]`; but when `total_orders = 0` both computations
divide by zero (`none` models the raised `ZeroDivisionError`) instead of
returning the claimed `0`. -/
theorem c2_rate_formula_bounds_and_guard (rows : List OrderLine) :
    (0 < total_orders rows →
      cancellation_rate rows =
          some ((cancelledOrders rows : ℚ) / (total_orders rows : ℚ) * 100) ∧
        promotion_rate rows =
          some ((promoOrders rows : ℚ) / (total_orders rows : ℚ) * 100) ∧
        (∀ q : ℚ, cancellation_rate rows = some q → 0 ≤ q ∧ q ≤ 100) ∧
        (∀ q : ℚ, promotion_rate rows = some q → 0 ≤ q ∧ q ≤ 100)) ∧
    (total_orders rows = 0 →
      cancellation_rate rows = none ∧ promotion_rate rows = none) := by
  constructor
  · intro h
    have hne : total_orders rows ≠ 0 := Nat.pos_iff_ne_zero.mp h
    have hpos : (0 : ℚ) < (total_orders rows : ℚ) := by exact_mod_cast h
    have key : ∀ m : ℕ, m ≤ total_orders rows →
        0 ≤ (m : ℚ) / (total_orders rows : ℚ) * 100 ∧
          (m : ℚ) / (total_orders rows : ℚ) * 100 ≤ 100 := by
      intro m hm
      constructor
      · positivity
      · have h1 : (m : ℚ) / (total_orders rows : ℚ) ≤ 1 :=
          (div_le_one hpos).mpr (by exact_mod_cast hm)
        nlinarith
    refine ⟨by rw [cancellation_rate, if_neg hne], by rw [promotion_rate, if_neg hne],
      ?_, ?_⟩
    · intro q hq
      rw [cancellation_rate, if_neg hne, Option.some.injEq] at hq
      exact hq ▸ key _ (cancelledOrders_le rows)
    · intro q hq
      rw [promotion_rate, if_neg hne, Option.some.injEq] at hq
      exact hq ▸ key _ (promoOrders_le rows)
  · intro h
    exact ⟨by rw [cancellation_rate, if_pos h], by rw [promotion_rate, if_pos h]⟩

/-- Witness for C2: on `exDF`, one of the two orders is cancelled and one
carries a promotion, so both rates are exactly 50. -/
theorem c2_rate_formula_bounds_and_guard_witness :
    cancellation_rate exDF = some 50 ∧ promotion_rate exDF = some 50 := by
  obtain ⟨h, -⟩ := c2_rate_formula_bounds_and_guard exDF
  obtain ⟨hc, hp, -, -⟩ := h (by decide)
  rw [hc, hp]
  have h1 : cancelledOrders exDF = 1 := by decide
  have h2 : total_orders exDF = 2 := by decide
  have h3 : promoOrders exDF = 1 := by decide
  rw [h1, h2, h3]
  norm_num

/-- Claim C6 (confirmed): `average_order_value * total_orders = total_sales`
exactly (hence within any rounding tolerance) whenever `total_orders > 0`,
and both `average_order_value` and `total_sales` are `0` when
`total_orders = 0` (no distinct order id forces the row list empty). -/
theorem c6_aov_times_orders (rows : List OrderLine) :
    (0 < total_orders rows →
      aov rows * (total_orders rows : ℚ) = total_sales rows) ∧
    (total_orders rows = 0 → aov rows = 0 ∧ total_sales rows = 0) := by
  constructor
  · intro h
    rw [aov, if_pos h]
    exact div_mul_cancel₀ _ (Nat.cast_ne_zero.mpr (Nat.pos_iff_ne_zero.mp h))
  · intro h
    have hrows : rows = [] := by
      rw [total_orders, List.length_eq_zero, List.dedup_eq_nil,
        List.map_eq_nil_iff] at h
      exact h
    subst hrows
    exact ⟨by rw [aov]; rfl, rfl⟩

/-- Witness for C6 at `exDF`: two orders totalling 300, so the product of
the average order value with the order count recovers the total. -/
theorem c6_aov_times_orders_witness :
    0 < total_orders exDF ∧ aov exDF * (total_orders exDF : ℚ) = total_sales exDF :=
  ⟨by decide, (c6_aov_times_orders exDF).1 (by decide)⟩

/-- Claim C7 (amended): every sum over an empty or all-null numeric column
yields `0`, and null `qty` values are excluded from the mean rather than
treated as zero; but the mean over an empty or all-null column yields pandas
`NaN` (modelled `none`), not the claimed `0`. -/
theorem c7_sum_zero_mean_nan (rows : List OrderLine) :
    ((∀ r ∈ rows, r.amount = none) → total_sales rows = 0) ∧
    ((∀ r ∈ rows, r.qty = none) → avg_qty_per_order rows = none) ∧
    (qtyVals rows ≠ [] →
      avg_qty_per_order rows =
        some ((qtyVals rows).sum / ((qtyVals rows).length : ℚ))) := by
  refine ⟨?_, ?_, ?_⟩
  · intro h
    rw [total_sales, List.filterMap_eq_nil_iff.mpr h]
    rfl
  · intro h
    rw [avg_qty_per_order,
      if_pos (show qtyVals rows = [] from List.filterMap_eq_nil_iff.mpr h)]
  · intro h
    rw [avg_qty_per_order, if_neg h]

/-- Counterexample for C7: a nonempty result set whose `Qty` column is
all-null.  The code's `filtered_df['Qty'].mean()` is `NaN` (`none`), not the
`0` the claim requires. -/
theorem c7_mean_counterexample :
    avg_qty_per_order exNullQty = none ∧ avg_qty_per_order exNullQty ≠ some 0 := by
  have h : avg_qty_per_order exNullQty = none := by rfl
  exact ⟨h, by rw [h]; exact fun hc => Option.noConfusion hc⟩

/-- Witness for C7: `exDF` has the non-null qty values `[1, 2]`, and the
all-null dataset `exNullQty` sums to its amount but has a `NaN` qty mean. -/
theorem c7_sum_zero_mean_nan_witness :
    avg_qty_per_order exDF = some ((3 : ℚ) / 2) ∧
      avg_qty_per_order exNullQty = none := by
  constructor
  · have h := (c7_sum_zero_mean_nan exDF).2.2 (by decide)
    rw [h]
    have h1 : qtyVals exDF = [1, 2] := by decide
    rw [h1]
    norm_num
  · exact (c7_sum_zero_mean_nan exNullQty).2.1 (by decide)

/-- Claim C8 (confirmed): the three sidebar filters are equivalent to one
conjunctive pass — the date bound is inclusive on both ends, the category
and region filters are no-ops exactly at the sentinel `"All"` and otherwise
exact string equality, and they compose by AND. -/
theorem c8_filter_composition (df : List OrderLine) (startD endD : Date)
    (cat reg : String) :
    filtered df startD endD cat reg = filteredSpec df startD endD cat reg := by
  unfold filtered filteredSpec
  by_cases hc : cat = "All" <;> by_cases hr : reg = "All" <;>
      simp only [hc, hr, ne_eq, not_true_eq_false, not_false_eq_true, ite_true,
        ite_false, if_true, if_false, List.filter_filter] <;>
    · apply List.filter_congr
      intro r _
      simp [hc, hr, Bool.and_comm, Bool.and_assoc, Bool.and_left_comm]

/-! ## Trend engine lemmas -/

/-- When the previous value is nonzero, one `pct_change` step is the plain
percentage formula. -/
theorem fdivPct_of_ne (cur prev : ℚ) (hp : prev ≠ 0) :
    fdivPct cur prev = FVal.num ((cur - prev) / prev * 100) := by
  rw [fdivPct, if_neg hp]

/-- Under all-nonzero values, the tail of `pct_change` is exactly the spec
formula zipped along consecutive pairs of the series. -/
theorem pctAux_eq_map_num (prev : ℚ) (rest : List ℚ) (hp : prev ≠ 0)
    (h : ∀ s ∈ rest, s ≠ 0) :
    pctAux prev rest =
      (List.zipWith (fun cur p => (cur - p) / p * 100) rest (prev :: rest)).map
        FVal.num := by
  induction rest generalizing prev with
  | nil => rfl
  | cons c r ih =>
    simp only [pctAux, List.zipWith_cons_cons, List.map_cons, List.cons.injEq]
    exact ⟨fdivPct_of_ne c prev hp,
      ih c (h c (List.mem_cons_self c r)) (fun s hs => h s (List.mem_cons_of_mem c hs))⟩

/-- A series headed by `NaN` whose tail is all plain numbers contains no
positive infinity. -/
theorem hasPosInf_nan_map (vals : List ℚ) :
    hasPosInf (FVal.nan :: vals.map FVal.num) = false := by
  simp [hasPosInf, List.any_map, Function.comp]

/-- Likewise no negative infinity. -/
theorem hasNegInf_nan_map (vals : List ℚ) :
    hasNegInf (FVal.nan :: vals.map FVal.num) = false := by
  simp [hasNegInf, List.any_map, Function.comp]

/-- The defined values of a `NaN`-headed all-number series are its tail. -/
theorem definedVals_nan_map (vals : List ℚ) :
    definedVals (FVal.nan :: vals.map FVal.num) = vals := by
  induction vals with
  | nil => rfl
  | cons v vs ih => simpa [definedVals, toNum, List.filterMap_cons] using ih

/-- Structure of `pct_change` followed by the `NaN`-skipping mean, for a
series of nonzero values: first entry `NaN`, the rest given by the growth
formula, exactly `length - 1` defined entries, and the mean taken over the
defined entries only. -/
theorem pctChange_structure (sales : List ℚ) (h : ∀ s ∈ sales, s ≠ 0) :
    (pctChange sales).length = sales.length ∧
    (sales ≠ [] →
      pctChange sales = FVal.nan :: (specGrowthVals sales).map FVal.num) ∧
    countDefined (pctChange sales) = sales.length - 1 ∧
    (2 ≤ sales.length →
      avgGrowth (pctChange sales) = FVal.num (meanQ (specGrowthVals sales))) := by
  cases sales with
  | nil =>
    refine ⟨rfl, fun hne => absurd rfl hne, rfl, fun h2 => absurd h2 (by simp)⟩
  | cons s rest =>
    have hp : s ≠ 0 := h s (List.mem_cons_self s rest)
    have hr : ∀ x ∈ rest, x ≠ 0 := fun x hx => h x (List.mem_cons_of_mem s hx)
    have hspec : specGrowthVals (s :: rest) =
        List.zipWith (fun cur p => (cur - p) / p * 100) rest (s :: rest) := by
      simp [specGrowthVals]
    have hkey : pctChange (s :: rest) =
        FVal.nan :: (specGrowthVals (s :: rest)).map FVal.num := by
      simp only [pctChange, List.cons.injEq, true_and]
      rw [pctAux_eq_map_num s rest hp hr, hspec]
    have hlen : (specGrowthVals (s :: rest)).length = rest.length := by
      rw [hspec, List.length_zipWith, List.length_cons]
      omega
    refine ⟨?_, fun _ => hkey, ?_, ?_⟩
    · rw [hkey, List.length_cons, List.length_map, hlen, List.length_cons]
    · rw [hkey, countDefined, definedVals_nan_map, hlen, List.length_cons]
      omega
    · intro h2
      have hne : specGrowthVals (s :: rest) ≠ [] := by
        have : 0 < (specGrowthVals (s :: rest)).length := by
          rw [hlen]
          simpa using h2
        exact List.length_pos.mp this
      rw [hkey, avgGrowth, hasPosInf_nan_map, hasNegInf_nan_map,
        definedVals_nan_map]
      simp [hne]

/-- Claim C3 (amended): for a filtered set whose monthly totals are all
nonzero, the month-over-month series has its first entry `NaN` (null, not
zero), every later entry given by
`(monthly_sales[i] - monthly_sales[i-1]) / monthly_sales[i-1] * 100`,
exactly `len(monthly_sales) - 1` defined values, and the average monthly
growth is the mean over the defined values only, the leading `NaN` excluded.
When a month total is `0`, the next entry is instead `NaN` or an infinity
(see the counterexample), which is what the zero-denominator float division
of `pct_change` produces. -/
theorem c3_mom_growth_structure (rows : List OrderLine)
    (h : ∀ s ∈ monthlySales rows, s ≠ 0) :
    (pctChange (monthlySales rows)).length = (monthlySales rows).length ∧
    (monthlySales rows ≠ [] →
      pctChange (monthlySales rows) =
        FVal.nan :: (specGrowthVals (monthlySales rows)).map FVal.num) ∧
    countDefined (pctChange (monthlySales rows)) = (monthlySales rows).length - 1 ∧
    (2 ≤ (monthlySales rows).length →
      avgGrowth (pctChange (monthlySales rows)) =
        FVal.num (meanQ (specGrowthVals (monthlySales rows)))) :=
  pctChange_structure (monthlySales rows) h

/-- Two months of rows whose amounts all failed numeric coercion. -/
def exNullMonths : List OrderLine :=
  [⟨"O4", (2022, 1, 5), none, some 1, "Kurta", "MAHARASHTRA", "MUMBAI",
      "Shipped", "No Promotion"⟩,
   ⟨"O5", (2022, 2, 5), none, some 1, "Kurta", "MAHARASHTRA", "MUMBAI",
      "Shipped", "No Promotion"⟩]

/-- Counterexample for C3: with two months whose amounts are all null, the
monthly totals are `[0, 0]`, `pct_change` computes `0/0 = NaN` for the
second month, and the series has `0` defined values — not the claimed
`len(monthly_sales) - 1 = 1` — while the average is `NaN` as well. -/
theorem c3_zero_month_counterexample :
    monthlySales exNullMonths = [0, 0] ∧
    pctChange (monthlySales exNullMonths) = [FVal.nan, FVal.nan] ∧
    countDefined (pctChange (monthlySales exNullMonths)) = 0 ∧
    (monthlySales exNullMonths).length - 1 = 1 ∧
    countDefined (pctChange (monthlySales exNullMonths)) ≠
      (monthlySales exNullMonths).length - 1 ∧
    avgGrowth (pctChange (monthlySales exNullMonths)) = FVal.nan := by
  refine ⟨by decide, by decide, by decide, by decide, by decide, by decide⟩

/-- Scenario E of the spec: one row in April 2022 with amount 1000 and one
in May 2022 with amount 1500. -/
def exTwoMonths : List OrderLine :=
  [⟨"O6", (2022, 4, 10), some 1000, some 1, "Kurta", "MAHARASHTRA", "MUMBAI",
      "Shipped", "No Promotion"⟩,
   ⟨"O7", (2022, 5, 10), some 1500, some 1, "Kurta", "MAHARASHTRA", "MUMBAI",
      "Shipped", "No Promotion"⟩]

/-- The monthly series of Scenario E evaluates to `[1000, 1500]`. -/
theorem monthlySales_exTwoMonths : monthlySales exTwoMonths = [1000, 1500] := by
  have hk : monthKeys exTwoMonths = [(2022, 4), (2022, 5)] := by decide
  rw [monthlySales, hk]
  have h1 : monthSum exTwoMonths (2022, 4) = 1000 := by
    simp [monthSum, exTwoMonths, monthOf]
  have h2 : monthSum exTwoMonths (2022, 5) = 1500 := by
    simp [monthSum, exTwoMonths, monthOf]
  rw [List.map_cons, List.map_cons, List.map_nil, h1, h2]

/-- Witness for C3, Scenario E: monthly sales `[1000, 1500]` give the growth
series `[null, 50.0]` and average monthly growth `50.0`. -/
theorem c3_mom_growth_structure_witness :
    pctChange (monthlySales exTwoMonths) = [FVal.nan, FVal.num 50] ∧
    avgGrowth (pctChange (monthlySales exTwoMonths)) = FVal.num 50 := by
  have hnz : ∀ s ∈ monthlySales exTwoMonths, s ≠ 0 := by
    rw [monthlySales_exTwoMonths]
    norm_num [List.forall_mem_cons]
  obtain ⟨-, hfull, -, havg⟩ := c3_mom_growth_structure exTwoMonths hnz
  have hs : specGrowthVals (monthlySales exTwoMonths) = [50] := by
    rw [monthlySales_exTwoMonths]
    simp [specGrowthVals]
    norm_num
  constructor
  · rw [hfull (by rw [monthlySales_exTwoMonths]; simp), hs]
    rfl
  · rw [havg (by rw [monthlySales_exTwoMonths]; simp), hs, meanQ]
    norm_num

/-- Positional form of the `pct_change` tail: the entry at position `i` of
the tail is the change from position `i` to position `i+1` of the series. -/
theorem pctAux_getElem (prev : ℚ) (rest : List ℚ) (i : ℕ) (p c : ℚ)
    (hp : (prev :: rest)[i]? = some p) (hc : rest[i]? = some c) :
    (pctAux prev rest)[i]? = some (fdivPct c p) := by
  induction rest generalizing prev i with
  | nil => simp at hc
  | cons x r ih =>
    cases i with
    | zero =>
      simp only [List.getElem?_cons_zero, Option.some.injEq] at hp hc
      subst hp
      subst hc
      simp only [pctAux, List.getElem?_cons_zero]
    | succ j =>
      simp only [List.getElem?_cons_succ] at hp hc
      simpa only [pctAux, List.getElem?_cons_succ] using ih x j hp hc

/-- One row in January 2022 (amount 100) and one in March 2022 (amount 200);
February has no row. -/
def exGapMonths : List OrderLine :=
  [⟨"O8", (2022, 1, 5), some 100, some 1, "Kurta", "MAHARASHTRA", "MUMBAI",
      "Shipped", "No Promotion"⟩,
   ⟨"O9", (2022, 3, 5), some 200, some 1, "Kurta", "MAHARASHTRA", "MUMBAI",
      "Shipped", "No Promotion"⟩]

/-- Claim C10 (confirmed): the monthly series has a key exactly for the
calendar months with at least one row, growth at position `i+1` is computed
against the series entry at position `i` whatever calendar month it holds,
and concretely a January/March dataset with no February data silently yields
the defined growth value `100` between the two non-adjacent months. -/
theorem c10_month_gaps_not_reindexed :
    (∀ (rows : List OrderLine) (k : Month),
        k ∈ monthKeys rows ↔ ∃ r ∈ rows, monthOf r = k) ∧
    (∀ (sales : List ℚ) (i : ℕ) (p c : ℚ),
        sales[i]? = some p → sales[i + 1]? = some c →
        (pctChange sales)[i + 1]? = some (fdivPct c p)) ∧
    (monthKeys exGapMonths = [(2022, 1), (2022, 3)] ∧
      pctChange (monthlySales exGapMonths) = [FVal.nan, FVal.num 100]) := by
  refine ⟨?_, ?_, ?_, ?_⟩
  · intro rows k
    rw [monthKeys, (List.perm_insertionSort mle _).mem_iff, List.mem_dedup,
      List.mem_map]
  · intro sales i p c hp hc
    cases sales with
    | nil => simp at hp
    | cons s rest =>
      simp only [List.getElem?_cons_succ] at hc
      simpa only [pctChange, List.getElem?_cons_succ] using
        pctAux_getElem s rest i p c hp hc
  · decide
  · have hk : monthKeys exGapMonths = [(2022, 1), (2022, 3)] := by decide
    have hm : monthlySales exGapMonths = [100, 200] := by
      rw [monthlySales, hk]
      have h1 : monthSum exGapMonths (2022, 1) = 100 := by
        simp [monthSum, exGapMonths, monthOf]
      have h2 : monthSum exGapMonths (2022, 3) = 200 := by
        simp [monthSum, exGapMonths, monthOf]
      rw [List.map_cons, List.map_cons, List.map_nil, h1, h2]
    rw [hm]
    have : fdivPct 200 100 = FVal.num 100 := by
      rw [fdivPct_of_ne _ _ (by norm_num)]
      norm_num
    simp only [pctChange, pctAux, this]

/-- Witness for C10, applying the positional statement at the concrete
series `[4, 6]`: the second growth entry compares the two consecutive
entries, giving 50%. -/
theorem c10_month_gaps_not_reindexed_witness :
    (pctChange [(4 : ℚ), 6])[1]? = some (fdivPct 6 4) ∧
      fdivPct 6 4 = FVal.num 50 := by
  constructor
  · exact c10_month_gaps_not_reindexed.2.1 [(4 : ℚ), 6] 0 4 6 rfl rfl
  · rw [fdivPct_of_ne _ _ (by norm_num)]
    norm_num

/-! ## Velocity engine -/

/-- One category over two days, with daily unit sums `0` and `6`: the mean
of the rolling means is `(0 + 3) / 2 = 3/2`, while the mean of the raw daily
values would be `3`. -/
def exTwoDays : List OrderLine :=
  [⟨"O10", (2022, 4, 1), some 10, some 0, "A", "MAHARASHTRA", "MUMBAI",
      "Shipped", "No Promotion"⟩,
   ⟨"O11", (2022, 4, 2), some 10, some 6, "A", "MAHARASHTRA", "MUMBAI",
      "Shipped", "No Promotion"⟩]

/-- Claim C4 (confirmed): each category's velocity scalar is the mean of the
trailing rolling means (window 7, min-periods 1) of its chronologically
ordered daily `(date, category)`-grouped series; every position `i` of the
rolling series averages the last `min (i+1) 7` daily values (so the first
six positions use however many days exist so far); and on a concrete
two-day dataset the two-stage result differs from the mean of the raw daily
values. -/
theorem c4_velocity_two_stage_smoothing :
    (∀ (rows : List OrderLine) (c : String),
        velQty rows c = meanQ (rolling7 (seriesQty rows c)) ∧
        velAmt rows c = meanQ (rolling7 (seriesAmt rows c)) ∧
        velOrd rows c = meanQ (rolling7 (seriesOrd rows c)) ∧
        (catDays rows c).Sorted dle ∧
        (∀ d : Date, d ∈ catDays rows c ↔ ∃ r ∈ rows, r.category = c ∧ r.date = d)) ∧
    (∀ xs : List ℚ, (rolling7 xs).length = xs.length) ∧
    (∀ (xs : List ℚ) (i : ℕ), i < xs.length →
        (rolling7 xs)[i]? = some (meanQ (windowQ xs i)) ∧
        windowQ xs i = (xs.take (i + 1)).drop (i + 1 - 7) ∧
        (windowQ xs i).length = min (i + 1) 7) ∧
    velQty exTwoDays "A" ≠ meanQ (seriesQty exTwoDays "A") := by
  refine ⟨?_, ?_, ?_, ?_⟩
  · intro rows c
    refine ⟨rfl, rfl, rfl, List.sorted_insertionSort dle _, ?_⟩
    intro d
    rw [catDays, (List.perm_insertionSort dle _).mem_iff, List.mem_dedup,
      List.mem_map]
    simp only [List.mem_filter, decide_eq_true_eq]
    constructor
    · rintro ⟨r, ⟨hr, hcat⟩, hd⟩
      exact ⟨r, hr, hcat, hd⟩
    · rintro ⟨r, hr, hcat, hd⟩
      exact ⟨r, ⟨hr, hcat⟩, hd⟩
  · intro xs
    simp [rolling7]
  · intro xs i h
    refine ⟨?_, rfl, ?_⟩
    · simp [rolling7, List.getElem?_map, List.getElem?_range, h]
    · rw [windowQ, List.length_drop, List.length_take]
      omega
  · have hd : catDays exTwoDays "A" = [(2022, 4, 1), (2022, 4, 2)] := by decide
    have hs : seriesQty exTwoDays "A" = [0, 6] := by
      rw [seriesQty, hd, List.map_cons, List.map_cons, List.map_nil]
      have h1 : dQty exTwoDays (2022, 4, 1) "A" = 0 := by
        simp [dQty, rowsAt, exTwoDays]
      have h2 : dQty exTwoDays (2022, 4, 2) "A" = 6 := by
        simp [dQty, rowsAt, exTwoDays]
      rw [h1, h2]
    rw [velQty, hs]
    have hr : rolling7 [(0 : ℚ), 6] = [meanQ [0], meanQ [0, 6]] := rfl
    rw [hr]
    norm_num [meanQ]

/-- Witness for C4 at the concrete series `[1, 3]`: position 1 of the
rolling series is the mean of the full two-element window, namely `2`. -/
theorem c4_velocity_two_stage_smoothing_witness :
    (rolling7 [(1 : ℚ), 3])[1]? = some (meanQ [1, 3]) ∧ meanQ [1, 3] = 2 := by
  constructor
  · have h := (c4_velocity_two_stage_smoothing.2.2.1 [(1 : ℚ), 3] 1 (by norm_num)).1
    rw [h]
    rfl
  · rw [meanQ]
    norm_num

/-- Mean of nonnegative values is nonnegative. -/
theorem meanQ_nonneg {xs : List ℚ} (h : ∀ x ∈ xs, 0 ≤ x) : 0 ≤ meanQ xs :=
  div_nonneg (List.sum_nonneg h) (Nat.cast_nonneg _)

/-- A rolling window is drawn from the series itself. -/
theorem windowQ_subset (xs : List ℚ) (i : ℕ) : windowQ xs i ⊆ xs :=
  fun _ hx => List.take_subset _ _ (List.drop_subset _ _ hx)

/-- Rolling means of a nonnegative series are nonnegative. -/
theorem rolling7_nonneg {xs : List ℚ} (h : ∀ x ∈ xs, 0 ≤ x) :
    ∀ y ∈ rolling7 xs, 0 ≤ y := by
  intro y hy
  rw [rolling7, List.mem_map] at hy
  obtain ⟨i, -, rfl⟩ := hy
  exact meanQ_nonneg (fun x hx => h x (windowQ_subset xs i hx))

/-- The seed of a max-fold bounds the fold from below. -/
theorem le_foldl_max_init (ys : List ℚ) (a : ℚ) : a ≤ ys.foldl max a := by
  induction ys generalizing a with
  | nil => exact le_refl a
  | cons y ys ih =>
    simp only [List.foldl_cons]
    exact le_trans (le_max_left a y) (ih (max a y))

/-- Every member bounds a max-fold from below. -/
theorem mem_le_foldl_max {x : ℚ} (ys : List ℚ) (a : ℚ) (hx : x ∈ ys) :
    x ≤ ys.foldl max a := by
  induction ys generalizing a with
  | nil => cases hx
  | cons y ys ih =>
    simp only [List.foldl_cons]
    rcases List.mem_cons.mp hx with rfl | h
    · exact le_trans (le_max_right a x) (le_foldl_max_init ys (max a x))
    · exact ih (max a y) h

/-- `maxList` dominates every member of the list. -/
theorem le_maxList {x : ℚ} {xs : List ℚ} (hx : x ∈ xs) : x ≤ maxList xs := by
  cases xs with
  | nil => cases hx
  | cons y ys =>
    rcases List.mem_cons.mp hx with rfl | h
    · exact le_foldl_max_init ys x
    · exact mem_le_foldl_max ys y h

/-- With nonnegative (or null) quantities every entry of a daily-units
series is nonnegative. -/
theorem seriesQty_nonneg {rows : List OrderLine}
    (hq : ∀ r ∈ rows, 0 ≤ r.qty.getD 0) (c : String) :
    ∀ x ∈ seriesQty rows c, 0 ≤ x := by
  intro x hx
  rw [seriesQty, List.mem_map] at hx
  obtain ⟨d, -, rfl⟩ := hx
  refine List.sum_nonneg ?_
  intro q hqmem
  rw [List.mem_filterMap] at hqmem
  obtain ⟨r, hr, hq'⟩ := hqmem
  have hrr : r ∈ rows := (List.mem_filter.mp hr).1
  simpa [hq'] using hq r hrr

/-- Likewise for the daily-revenue series. -/
theorem seriesAmt_nonneg {rows : List OrderLine}
    (ha : ∀ r ∈ rows, 0 ≤ r.amount.getD 0) (c : String) :
    ∀ x ∈ seriesAmt rows c, 0 ≤ x := by
  intro x hx
  rw [seriesAmt, List.mem_map] at hx
  obtain ⟨d, -, rfl⟩ := hx
  refine List.sum_nonneg ?_
  intro q hqmem
  rw [List.mem_filterMap] at hqmem
  obtain ⟨r, hr, hq'⟩ := hqmem
  have hrr : r ∈ rows := (List.mem_filter.mp hr).1
  simpa [hq'] using ha r hrr

/-- Daily distinct-order counts are nonnegative unconditionally. -/
theorem seriesOrd_nonneg (rows : List OrderLine) (c : String) :
    ∀ x ∈ seriesOrd rows c, 0 ≤ x := by
  intro x hx
  rw [seriesOrd, List.mem_map] at hx
  obtain ⟨d, -, rfl⟩ := hx
  exact Nat.cast_nonneg _

/-- The three velocity scalars of a present category sit below the
respective maxima and above 0. -/
theorem velQty_le_maxQty {rows : List OrderLine} {c : String}
    (hc : c ∈ cats rows) : velQty rows c ≤ maxQty rows :=
  le_maxList (List.mem_map_of_mem (velQty rows) hc)

theorem velAmt_le_maxAmt {rows : List OrderLine} {c : String}
    (hc : c ∈ cats rows) : velAmt rows c ≤ maxAmt rows :=
  le_maxList (List.mem_map_of_mem (velAmt rows) hc)

theorem velOrd_le_maxOrd {rows : List OrderLine} {c : String}
    (hc : c ∈ cats rows) : velOrd rows c ≤ maxOrd rows :=
  le_maxList (List.mem_map_of_mem (velOrd rows) hc)

/-- When no maximum is zero, the velocity score is a plain number given by
the weighted normalized formula. -/
theorem velocity_score_num (rows : List OrderLine) (c : String)
    (hmq : maxQty rows ≠ 0) (hma : maxAmt rows ≠ 0) (hmo : maxOrd rows ≠ 0) :
    velocity_score rows c =
      FVal.num ((velQty rows c / maxQty rows * (2 / 5) +
        velAmt rows c / maxAmt rows * (2 / 5) +
        velOrd rows c / maxOrd rows * (1 / 5)) * 100) := by
  rw [velocity_score, fdiv, if_neg hmq, fdiv, if_neg hma, fdiv, if_neg hmo]
  rfl

/-- Claim C5 (amended): for a present category, under the data-model
invariants (qty and amount nonnegative where non-null) and with all three
normalization maxima nonzero, the velocity score is a plain number in
`[0, 100]`, and it is exactly `100` when the category is the only one.  When
a maximum is `0` the normalization does NOT degenerate to `0`: it is the
float division `0/0 = NaN` and the score is `NaN` (see the
counterexample). -/
theorem c5_velocity_score_amended (rows : List OrderLine) (c : String)
    (hc : c ∈ cats rows)
    (hq : ∀ r ∈ rows, 0 ≤ r.qty.getD 0)
    (ha : ∀ r ∈ rows, 0 ≤ r.amount.getD 0)
    (hmq : maxQty rows ≠ 0) (hma : maxAmt rows ≠ 0) (hmo : maxOrd rows ≠ 0) :
    ∃ s : ℚ, velocity_score rows c = FVal.num s ∧ 0 ≤ s ∧ s ≤ 100 ∧
      (cats rows = [c] → s = 100) := by
  have hq0 : 0 ≤ velQty rows c :=
    meanQ_nonneg (rolling7_nonneg (seriesQty_nonneg hq c))
  have ha0 : 0 ≤ velAmt rows c :=
    meanQ_nonneg (rolling7_nonneg (seriesAmt_nonneg ha c))
  have ho0 : 0 ≤ velOrd rows c :=
    meanQ_nonneg (rolling7_nonneg (seriesOrd_nonneg rows c))
  have hqle := velQty_le_maxQty hc
  have hale := velAmt_le_maxAmt hc
  have hole := velOrd_le_maxOrd hc
  have hmqpos : 0 < maxQty rows := lt_of_le_of_ne (le_trans hq0 hqle) (Ne.symm hmq)
  have hmapos : 0 < maxAmt rows := lt_of_le_of_ne (le_trans ha0 hale) (Ne.symm hma)
  have hmopos : 0 < maxOrd rows := lt_of_le_of_ne (le_trans ho0 hole) (Ne.symm hmo)
  have hq1 : velQty rows c / maxQty rows ≤ 1 := (div_le_one hmqpos).mpr hqle
  have ha1 : velAmt rows c / maxAmt rows ≤ 1 := (div_le_one hmapos).mpr hale
  have ho1 : velOrd rows c / maxOrd rows ≤ 1 := (div_le_one hmopos).mpr hole
  have hq0' : 0 ≤ velQty rows c / maxQty rows := div_nonneg hq0 hmqpos.le
  have ha0' : 0 ≤ velAmt rows c / maxAmt rows := div_nonneg ha0 hmapos.le
  have ho0' : 0 ≤ velOrd rows c / maxOrd rows := div_nonneg ho0 hmopos.le
  refine ⟨_, velocity_score_num rows c hmq hma hmo, ?_, ?_, ?_⟩
  · nlinarith
  · nlinarith
  · intro hsing
    have e1 : maxQty rows = velQty rows c := by
      rw [maxQty, hsing, List.map_cons, List.map_nil]
      rfl
    have e2 : maxAmt rows = velAmt rows c := by
      rw [maxAmt, hsing, List.map_cons, List.map_nil]
      rfl
    have e3 : maxOrd rows = velOrd rows c := by
      rw [maxOrd, hsing, List.map_cons, List.map_nil]
      rfl
    rw [e1, e2, e3, div_self (fun h0 => hmq (e1 ▸ h0)),
      div_self (fun h0 => hma (e2 ▸ h0)), div_self (fun h0 => hmo (e3 ▸ h0))]
    norm_num

/-- A single row, single category, with quantity `0`: the smoothed qty
scalar is `0`, so `Qty.max()` is `0`. -/
def exZeroQty : List OrderLine :=
  [⟨"O12", (2022, 4, 1), some 10, some 0, "A", "MAHARASHTRA", "MUMBAI",
      "Shipped", "No Promotion"⟩]

/-- Counterexample for C5: with a single category of zero total quantity the
claim demands `0/0 → 0` and a velocity score of `100` in `[0, 100]`; the
code's float normalization instead gives `0/0 = NaN`, making the whole score
`NaN` — neither `100` nor a number in `[0, 100]`. -/
theorem c5_velocity_nan_counterexample :
    cats exZeroQty = ["A"] ∧ velocity_score exZeroQty "A" = FVal.nan ∧
      velocity_score exZeroQty "A" ≠ FVal.num 100 := by
  have key : velocity_score exZeroQty "A" = FVal.nan := ?_
  · exact ⟨by decide, key, by rw [key]; exact fun h => FVal.noConfusion h⟩
  have hd : catDays exZeroQty "A" = [(2022, 4, 1)] := by decide
  have hq : velQty exZeroQty "A" = 0 := by
    have hs : seriesQty exZeroQty "A" = [0] := by
      rw [seriesQty, hd, List.map_cons, List.map_nil]
      have h0 : dQty exZeroQty (2022, 4, 1) "A" = 0 := by
        simp [dQty, rowsAt, exZeroQty]
      rw [h0]
    rw [velQty, hs]
    have hr : rolling7 [(0 : ℚ)] = [meanQ [0]] := rfl
    rw [hr]
    norm_num [meanQ]
  have hmq : maxQty exZeroQty = 0 := by
    have hcats : cats exZeroQty = ["A"] := by decide
    rw [maxQty, hcats, List.map_cons, List.map_nil, hq]
    rfl
  rw [velocity_score, hq, hmq]
  norm_num [fdiv, fscale, fadd]

/-- A single row, single category, with positive quantity, amount and order
count. -/
def exOneCat : List OrderLine :=
  [⟨"O13", (2022, 4, 1), some 10, some 2, "A", "MAHARASHTRA", "MUMBAI",
      "Shipped", "No Promotion"⟩]

/-- The smoothed scalars of `exOneCat` evaluate to `2`, `10` and `1`. -/
theorem exOneCat_scalars :
    velQty exOneCat "A" = 2 ∧ velAmt exOneCat "A" = 10 ∧
      velOrd exOneCat "A" = 1 := by
  have hd : catDays exOneCat "A" = [(2022, 4, 1)] := by decide
  refine ⟨?_, ?_, ?_⟩
  · have hs : seriesQty exOneCat "A" = [2] := by
      rw [seriesQty, hd, List.map_cons, List.map_nil]
      have h0 : dQty exOneCat (2022, 4, 1) "A" = 2 := by
        simp [dQty, rowsAt, exOneCat]
      rw [h0]
    rw [velQty, hs]
    have hr : rolling7 [(2 : ℚ)] = [meanQ [2]] := rfl
    rw [hr]
    norm_num [meanQ]
  · have hs : seriesAmt exOneCat "A" = [10] := by
      rw [seriesAmt, hd, List.map_cons, List.map_nil]
      have h0 : dAmt exOneCat (2022, 4, 1) "A" = 10 := by
        simp [dAmt, rowsAt, exOneCat]
      rw [h0]
    rw [velAmt, hs]
    have hr : rolling7 [(10 : ℚ)] = [meanQ [10]] := rfl
    rw [hr]
    norm_num [meanQ]
  · have hs : seriesOrd exOneCat "A" = [1] := by
      rw [seriesOrd, hd, List.map_cons, List.map_nil]
      have h0 : dOrd exOneCat (2022, 4, 1) "A" = 1 := by
        simp [dOrd, rowsAt, exOneCat]
      rw [h0]
    rw [velOrd, hs]
    have hr : rolling7 [(1 : ℚ)] = [meanQ [1]] := rfl
    rw [hr]
    norm_num [meanQ]

/-- Witness for C5, Scenario B of the spec: a single category on a single
day with positive data normalizes against itself and scores exactly 100. -/
theorem c5_velocity_score_amended_witness :
    velocity_score exOneCat "A" = FVal.num 100 := by
  obtain ⟨hv, hva, hvo⟩ := exOneCat_scalars
  have hcats : cats exOneCat = ["A"] := by decide
  have hmq : maxQty exOneCat = 2 := by
    rw [maxQty, hcats, List.map_cons, List.map_nil, hv]
    rfl
  have hma : maxAmt exOneCat = 10 := by
    rw [maxAmt, hcats, List.map_cons, List.map_nil, hva]
    rfl
  have hmo : maxOrd exOneCat = 1 := by
    rw [maxOrd, hcats, List.map_cons, List.map_nil, hvo]
    rfl
  obtain ⟨s, hs, -, -, h100⟩ :=
    c5_velocity_score_amended exOneCat "A" (by decide)
      (by
        intro r hr
        simp only [exOneCat, List.mem_singleton] at hr
        subst hr
        norm_num)
      (by
        intro r hr
        simp only [exOneCat, List.mem_singleton] at hr
        subst hr
        norm_num)
      (by rw [hmq]; norm_num) (by rw [hma]; norm_num) (by rw [hmo]; norm_num)
  rw [hs, h100 hcats]

end ECom
